import Mathlib

/-!
Verification of the BVSim beach-volleyball point simulator against its
natural-language specification.  The Python sources under `src/` are shallowly
embedded below: probability tables become insertion-ordered association lists
over `ℚ`, the `random.Random` stream becomes an explicit stream of rational
draws, and every loop becomes a recursion whose termination Lean checks.
-/

namespace BVSim

/-- One action record, mirroring `bvsim_core/point.py` `State`. -/
structure State where
  team : String
  action : String
  quality : String
deriving DecidableEq

/-- A completed point, mirroring `bvsim_core/point.py` `Point`.  The Python
`__post_init__` validation (serving_team/winner in {A,B}, non-empty states) is
not baked into the structure; the theorems below establish those facts for
every point the simulator produces. -/
structure Point where
  serving_team : String
  winner : String
  point_type : String
  states : List State
deriving DecidableEq

/-- A probability table: outcome keys with rational masses, in Python dict
insertion order (`dict` preserves insertion order, which
`choose_outcome` walks). -/
abbrev Dist := List (String × ℚ)

/-- A conditional table: condition key -> distribution, insertion ordered. -/
abbrev CondDist := List (String × Dist)

/-- Team configuration, mirroring `bvsim_core/team.py` `Team`. -/
structure Team where
  name : String
  serve_probabilities : Dist
  receive_probabilities : CondDist
  set_probabilities : CondDist
  attack_probabilities : CondDist
  block_probabilities : CondDist
  dig_probabilities : CondDist
deriving DecidableEq

/-- `cond_table.get(key, {})`: the distribution stored under a condition key,
or the empty distribution when the key is absent. -/
def getCond (t : CondDist) (k : String) : Dist :=
  ((t.find? (fun kv => kv.1 = k)).map (fun kv => kv.2)).getD []

/-- The `random.Random` object of a single simulation: a stream of uniform
[0,1) draws (here: arbitrary rationals) and the index of the next draw.
`random.Random(seed)` is deterministic, so a fixed seed is one fixed stream. -/
structure RNG where
  draws : Nat → ℚ
  idx : Nat

/-- The value `rng.random()` returns at the current position. -/
def RNG.val (g : RNG) : ℚ := g.draws g.idx

/-- The generator after one `rng.random()` call. -/
def RNG.next (g : RNG) : RNG := ⟨g.draws, g.idx + 1⟩

/-- `rng.choice([x, y])`: consume one draw and pick one of the two elements.
Only the facts that the result is `x` or `y` and that it is a function of the
stream matter to the claims. -/
def RNG.choice2 (g : RNG) (x y : String) : String :=
  if g.val < 1/2 then x else y

/-- The accumulation loop of `choose_outcome` (state_machine.py:317-323):
walk the entries in order keeping a running total `c`; return the first
outcome whose running total reaches the draw `r`, or `none` if the total
never reaches `r`. -/
def choose_outcome_go (r : ℚ) (c : ℚ) : Dist → Option String
  | [] => none
  | kv :: rest =>
      if r ≤ c + kv.2 then some kv.1 else choose_outcome_go r (c + kv.2) rest

/-- `choose_outcome(probabilities, rng)` from `bvsim_core/state_machine.py`,
applied to the draw `r = rng.random()`.  On an empty table the Python raises
`ValueError`; this total embedding returns the junk value `""` there, and the
theorems about the simulator assume the validated (hence non-empty) tables
under which the raise is unreachable. -/
def choose_outcome (probs : Dist) (r : ℚ) : String :=
  (choose_outcome_go r 0 probs).getD ((probs.map Prod.fst).getLastD "")

/-- Specification-side helper for C1: the cumulative probability masses of a
table, starting from an already accumulated mass `c`. -/
def cumulativeMasses (c : ℚ) : Dist → List ℚ
  | [] => []
  | kv :: rest => (c + kv.2) :: cumulativeMasses (c + kv.2) rest

/-- Specification-side helper for C1: the index of the first list entry that
meets or exceeds `r`, in order. -/
def firstIndexAtOrAbove (r : ℚ) : List ℚ → Option Nat
  | [] => none
  | c :: rest =>
      if r ≤ c then some 0 else (firstIndexAtOrAbove r rest).map (· + 1)

lemma choose_outcome_go_eq (r : ℚ) :
    ∀ (probs : Dist) (c : ℚ),
      choose_outcome_go r c probs =
        (firstIndexAtOrAbove r (cumulativeMasses c probs)).map
          (fun i => (probs.map Prod.fst).getD i "")
  | [], c => by simp [choose_outcome_go, cumulativeMasses, firstIndexAtOrAbove]
  | kv :: rest, c => by
      rw [choose_outcome_go, cumulativeMasses, firstIndexAtOrAbove]
      by_cases hr : r ≤ c + kv.2
      · simp [hr]
      · rw [choose_outcome_go_eq r rest (c + kv.2)]
        simp only [hr, ite_false, Option.map_map]
        rfl

/-- C1: for every non-empty probability table and every draw r, choose_outcome
returns the entry at the first index, in insertion order, whose cumulative
probability mass meets or exceeds r; if the accumulated mass never reaches r,
it returns the table's last entry. -/
theorem choose_outcome_first_at_or_above (probs : Dist) (r : ℚ) (h : probs ≠ []) :
    choose_outcome probs r =
      match firstIndexAtOrAbove r (cumulativeMasses 0 probs) with
      | some i => (probs.map Prod.fst).getD i ""
      | none => (probs.map Prod.fst).getLastD "" := by
  rw [choose_outcome, choose_outcome_go_eq]
  cases firstIndexAtOrAbove r (cumulativeMasses 0 probs) <;> simp

theorem choose_outcome_first_at_or_above_witness :
    ([("ace", (1:ℚ)/10), ("in_play", 85/100), ("error", 5/100)] : Dist) ≠ [] ∧
    choose_outcome [("ace", (1:ℚ)/10), ("in_play", 85/100), ("error", 5/100)] (1/2) =
      match firstIndexAtOrAbove (1/2)
          (cumulativeMasses 0 [("ace", (1:ℚ)/10), ("in_play", 85/100), ("error", 5/100)]) with
      | some i => (([("ace", (1:ℚ)/10), ("in_play", 85/100), ("error", 5/100)] : Dist).map
          Prod.fst).getD i ""
      | none => (([("ace", (1:ℚ)/10), ("in_play", 85/100), ("error", 5/100)] : Dist).map
          Prod.fst).getLastD "" :=
  ⟨by decide, choose_outcome_first_at_or_above _ _ (by decide)⟩

/-! ## The point state machine (`bvsim_core/state_machine.py`)

Hardcoded fallback distributions substituted when a required condition key is
absent from a team's table. -/

/-- Fallback for `do_set` and the set step of `simulate_point`. -/
def fallbackSet : Dist :=
  [("excellent", 28/100), ("good", 48/100), ("poor", 22/100), ("error", 2/100)]

/-- Fallback for `do_attack` and the attack step of `simulate_point`. -/
def fallbackAttack : Dist := [("kill", 50/100), ("error", 20/100), ("defended", 30/100)]

/-- Fallback block distribution. -/
def fallbackBlock : Dist :=
  [("stuff", 20/100), ("deflection_to_attack", 15/100),
   ("deflection_to_defense", 15/100), ("no_touch", 50/100)]

/-- Fallback dig distribution in the `deflection_to_attack` branch. -/
def fallbackDigDeflection : Dist :=
  [("excellent", 30/100), ("good", 40/100), ("poor", 25/100), ("error", 5/100)]

/-- Fallback dig distribution in the `no_touch` branch. -/
def fallbackDigNoTouch : Dist :=
  [("excellent", 25/100), ("good", 35/100), ("poor", 30/100), ("error", 10/100)]

/-- Fallback receive distribution. -/
def fallbackReceive : Dist :=
  [("excellent", 40/100), ("good", 40/100), ("poor", 15/100), ("error", 5/100)]

/-- `do_set` from state_machine.py: sample the setting team's set table under
condition `<previous_quality>_reception` (dig feeds reuse the reception-keyed
rows), with the hardcoded fallback when the condition is absent.  The
`previous_action` argument is carried but, as in the source, never read. -/
def do_set (attacking_team_obj : Team) (previous_quality previous_action : String)
    (g : RNG) : String × RNG :=
  let condition := previous_quality ++ "_reception"
  let set_probs := getCond attacking_team_obj.set_probabilities condition
  let set_probs := if set_probs = [] then fallbackSet else set_probs
  (choose_outcome set_probs g.val, g.next)

/-- `do_attack` from state_machine.py: sample the attack table under condition
`<set_quality>_set`. -/
def do_attack (attacking_team_obj : Team) (set_quality : String) (g : RNG) :
    String × RNG :=
  let attack_condition := set_quality ++ "_set"
  let attack_probs := getCond attacking_team_obj.attack_probabilities attack_condition
  let attack_probs := if attack_probs = [] then fallbackAttack else attack_probs
  (choose_outcome attack_probs g.val, g.next)

/-- `do_defense` from state_machine.py: block attempt plus the potential dig,
returning `(block_outcome, dig_outcome_or_none)` and the advanced generator. -/
def do_defense (defending_team_obj : Team) (attack_quality : String) (g : RNG) :
    (String × Option String) × RNG :=
  if attack_quality ≠ "defended" then (("no_block", none), g)
  else
    let block_probs := getCond defending_team_obj.block_probabilities "power_attack"
    let block_probs := if block_probs = [] then fallbackBlock else block_probs
    let block_outcome := choose_outcome block_probs g.val
    let g := g.next
    if block_outcome = "stuff" then ((block_outcome, none), g)
    else if block_outcome = "deflection_to_attack" then
      let dig_probs := getCond defending_team_obj.dig_probabilities "deflected_attack"
      let dig_probs := if dig_probs = [] then fallbackDigDeflection else dig_probs
      ((block_outcome, some (choose_outcome dig_probs g.val)), g.next)
    else if block_outcome = "deflection_to_defense" then ((block_outcome, none), g)
    else
      if g.val < 80/100 then
        let g2 := g.next
        let dig_probs := getCond defending_team_obj.dig_probabilities "deflected_attack"
        let dig_probs := if dig_probs = [] then fallbackDigNoTouch else dig_probs
        ((block_outcome, some (choose_outcome dig_probs g2.val)), g2.next)
      else ((block_outcome, none), g.next)

/-- The exit of `continue_rally` when the action ceiling stops the loop
(state_machine.py:293-300): an RNG coin flip between the two current roles
and point_type "rally". -/
def rally_end (states : List State) (serving atk dfd : String) (g : RNG) : Point :=
  ⟨serving, g.choice2 atk dfd, "rally", states⟩

/-- One pass of the `while` body of `continue_rally`, either producing the
finished point (a `return` or a `break` into the rally-ceiling exit) or the
updated loop state for the next iteration (`continue`, or falling off the end
of the body). -/
inductive StepRes where
  | done (p : Point)
  | cont (states : List State) (cnt : Nat) (atk dfd digQ : String) (g : RNG)


/-- The combined invariant of a step result relative to the state list it was
entered with: states only grow, the rally's two roles are preserved (possibly
swapped), and the action count tracks the list length and respects the
ceiling. -/
def StepRes.inv (max_actions : Nat) (states : List State) (atk dfd : String) :
    StepRes → Prop
  | .done p => (∃ rest, p.states = states ++ rest) ∧
      (p.winner = atk ∨ p.winner = dfd) ∧ p.states.length ≤ max_actions
  | .cont s2 c2 a2 d2 _ _ => (∃ rest, s2 = states ++ rest) ∧
      ((a2 = atk ∧ d2 = dfd) ∨ (a2 = dfd ∧ d2 = atk)) ∧
      c2 = s2.length ∧ c2 ≤ max_actions

/-- The loop-variant fact about a step result: a continuation carries a
strictly larger action count. -/
def StepRes.cntAtLeast (lo : Nat) : StepRes → Prop
  | .done _ => True
  | .cont _ c _ _ _ _ => lo ≤ c

lemma RNG.choice2_or (g : RNG) (x y : String) :
    g.choice2 x y = x ∨ g.choice2 x y = y := by
  unfold RNG.choice2; split <;> simp

lemma exists_suffix_refl (s : List State) : ∃ r, s = s ++ r := ⟨[], by simp⟩

lemma exists_suffix_append (s t : List State) : ∃ r, s ++ t = s ++ r := ⟨t, rfl⟩

lemma exists_suffix_append2 (s t u : List State) : ∃ r, s ++ t ++ u = s ++ r :=
  ⟨t ++ u, by rw [List.append_assoc]⟩

lemma StepRes.inv_of_suffix (r : StepRes) (max_actions : Nat)
    (states states2 : List State) (atk dfd : String)
    (h : r.inv max_actions states2 atk dfd) (he : ∃ ext, states2 = states ++ ext) :
    r.inv max_actions states atk dfd := by
  obtain ⟨ext, rfl⟩ := he
  cases r with
  | done p =>
      obtain ⟨⟨rest, hr⟩, hw, hl⟩ := h
      exact ⟨⟨ext ++ rest, by rw [hr, List.append_assoc]⟩, hw, hl⟩
  | cont s2 c2 a2 d2 q2 g2 =>
      obtain ⟨⟨rest, hr⟩, hw, hl⟩ := h
      exact ⟨⟨ext ++ rest, by rw [hr, List.append_assoc]⟩, hw, hl⟩

/-- The `deflection_to_attack` block of the rally loop body
(state_machine.py:188-207), entered after the block state was appended, so
with `action_count = cnt + 3`. -/
def step_deflect_attack (max_actions : Nat) (serving : String) (states : List State)
    (cnt : Nat) (atk dfd digQ : String) (digO : Option String) (g : RNG) : StepRes :=
  match digO with
  | some digOut =>
    if max_actions ≤ cnt + 3 then .done (rally_end states serving atk dfd g)
    else
      let states := states ++ [⟨atk, "dig", digOut⟩]
      if digOut = "error" then .done ⟨serving, dfd, "dig_error", states⟩
      else .cont states (cnt + 4) atk dfd digOut g
  | none => .cont states (cnt + 3) atk dfd digQ g

/-- The `deflection_to_defense` block of the rally loop body
(state_machine.py:208-254): the defending side sets (fixed "excellent"
feed) and attacks with no dig phase. -/
def step_deflect_defense (max_actions : Nat) (tms : String → Team) (serving : String)
    (states : List State) (cnt : Nat) (atk dfd digQ : String) (g : RNG) : StepRes :=
  if max_actions ≤ cnt + 3 then .done (rally_end states serving atk dfd g)
  else
    let dfdObj := tms dfd
    let sres2 := do_set dfdObj "excellent" "block_deflection" g
    let setQ2 := sres2.1
    let g := sres2.2
    let states := states ++ [⟨dfd, "set", setQ2⟩]
    if setQ2 = "error" then .done ⟨serving, atk, "set_error", states⟩
    else if max_actions ≤ cnt + 4 then .done (rally_end states serving atk dfd g)
    else
      let ares2 := do_attack dfdObj setQ2 g
      let attackQ2 := ares2.1
      let g := ares2.2
      let states := states ++ [⟨dfd, "attack", attackQ2⟩]
      if attackQ2 = "kill" then .done ⟨serving, dfd, "kill", states⟩
      else if attackQ2 = "error" then .done ⟨serving, atk, "attack_error", states⟩
      else if attackQ2 = "defended" then .cont states (cnt + 5) dfd atk "excellent" g
      else .cont states (cnt + 5) atk dfd digQ g

/-- The remaining block outcomes (`no_touch` and any other label) of the rally
loop body (state_machine.py:255-283). -/
def step_other_block (max_actions : Nat) (serving : String) (states : List State)
    (cnt : Nat) (atk dfd : String) (digO : Option String) (g : RNG) : StepRes :=
  match digO with
  | some digOut =>
    if max_actions ≤ cnt + 3 then .done (rally_end states serving atk dfd g)
    else
      let states := states ++ [⟨dfd, "dig", digOut⟩]
      if digOut = "error" then .done ⟨serving, atk, "dig_error", states⟩
      else .cont states (cnt + 4) dfd atk digOut g
  | none => .done ⟨serving, atk, "kill", states⟩

/-- The defense section of the rally loop body (state_machine.py:173-283):
block attempt, then dispatch on the block outcome; entered with
`action_count = cnt + 2` after set and attack were appended. -/
def step_defense (max_actions : Nat) (tms : String → Team) (serving : String)
    (states : List State) (cnt : Nat) (atk dfd digQ attackQ : String) (g : RNG) :
    StepRes :=
  let dres := do_defense (tms dfd) attackQ g
  let blockO := dres.1.1
  let digO := dres.1.2
  let g := dres.2
  if blockO ≠ "no_block" then
    let states := states ++ [⟨dfd, "block", blockO⟩]
    if blockO = "stuff" then .done ⟨serving, dfd, "stuff", states⟩
    else if blockO = "deflection_to_attack" then
      step_deflect_attack max_actions serving states cnt atk dfd digQ digO g
    else if blockO = "deflection_to_defense" then
      step_deflect_defense max_actions tms serving states cnt atk dfd digQ g
    else step_other_block max_actions serving states cnt atk dfd digO g
  else .cont states (cnt + 2) atk dfd digQ g

/-- The body of `continue_rally`'s while loop (state_machine.py:130-291),
entered with `cnt < max_actions`; `cnt` is the running `action_count`, equal
to `states.length` throughout. -/
def continue_rally_step (max_actions : Nat) (tms : String → Team) (serving : String)
    (states : List State) (cnt : Nat) (atk dfd digQ : String) (g : RNG) : StepRes :=
  let atkObj := tms atk
  let sres := do_set atkObj digQ "dig" g
  let setQ := sres.1
  let g := sres.2
  let states := states ++ [⟨atk, "set", setQ⟩]
  if setQ = "error" then .done ⟨serving, dfd, "set_error", states⟩
  else if max_actions ≤ cnt + 1 then .done (rally_end states serving atk dfd g)
  else
    let ares := do_attack atkObj setQ g
    let attackQ := ares.1
    let g := ares.2
    let states := states ++ [⟨atk, "attack", attackQ⟩]
    if attackQ = "kill" then .done ⟨serving, atk, "kill", states⟩
    else if attackQ = "error" then .done ⟨serving, dfd, "attack_error", states⟩
    else if attackQ = "defended" then
      if max_actions ≤ cnt + 2 then .done (rally_end states serving atk dfd g)
      else step_defense max_actions tms serving states cnt atk dfd digQ attackQ g
    else .done ⟨serving, atk, "kill", states⟩

lemma step_deflect_attack_cnt (max_actions : Nat) (serving : String)
    (states : List State) (cnt : Nat) (atk dfd digQ : String) (digO : Option String)
    (g : RNG) :
    (step_deflect_attack max_actions serving states cnt atk dfd digQ digO g).cntAtLeast
      (cnt + 2) := by
  unfold step_deflect_attack
  dsimp only []
  repeat' split
  all_goals simp only [StepRes.cntAtLeast]
  all_goals first | trivial | omega

lemma step_deflect_defense_cnt (max_actions : Nat) (tms : String → Team)
    (serving : String) (states : List State) (cnt : Nat) (atk dfd digQ : String)
    (g : RNG) :
    (step_deflect_defense max_actions tms serving states cnt atk dfd digQ g).cntAtLeast
      (cnt + 2) := by
  unfold step_deflect_defense
  dsimp only []
  generalize do_set (tms dfd) "excellent" "block_deflection" g = sres2
  generalize do_attack (tms dfd) sres2.1 sres2.2 = ares2
  repeat' split
  all_goals simp only [StepRes.cntAtLeast]
  all_goals first | trivial | omega

lemma step_other_block_cnt (max_actions : Nat) (serving : String)
    (states : List State) (cnt : Nat) (atk dfd : String) (digO : Option String)
    (g : RNG) :
    (step_other_block max_actions serving states cnt atk dfd digO g).cntAtLeast
      (cnt + 2) := by
  unfold step_other_block
  dsimp only []
  repeat' split
  all_goals simp only [StepRes.cntAtLeast]
  all_goals first | trivial | omega

lemma step_defense_cnt (max_actions : Nat) (tms : String → Team) (serving : String)
    (states : List State) (cnt : Nat) (atk dfd digQ attackQ : String) (g : RNG) :
    (step_defense max_actions tms serving states cnt atk dfd digQ attackQ g).cntAtLeast
      (cnt + 2) := by
  unfold step_defense
  dsimp only []
  generalize do_defense (tms dfd) attackQ g = dres
  repeat' split
  all_goals first
    | exact step_deflect_attack_cnt max_actions serving _ cnt atk dfd digQ dres.1.2 dres.2
    | exact step_deflect_defense_cnt max_actions tms serving _ cnt atk dfd digQ dres.2
    | exact step_other_block_cnt max_actions serving _ cnt atk dfd dres.1.2 dres.2
    | (simp only [StepRes.cntAtLeast] <;> omega)

lemma continue_rally_step_cnt (max_actions : Nat) (tms : String → Team)
    (serving : String) (states : List State) (cnt : Nat) (atk dfd digQ : String)
    (g : RNG) :
    (continue_rally_step max_actions tms serving states cnt atk dfd digQ g).cntAtLeast
      (cnt + 2) := by
  unfold continue_rally_step
  dsimp only []
  generalize do_set (tms atk) digQ "dig" g = sres
  generalize do_attack (tms atk) sres.1 sres.2 = ares
  repeat' split
  all_goals first
    | exact step_defense_cnt max_actions tms serving _ cnt atk dfd digQ ares.1 ares.2
    | (simp only [StepRes.cntAtLeast] <;> omega)

lemma step_deflect_attack_inv (max_actions : Nat) (serving : String)
    (states : List State) (cnt : Nat) (atk dfd digQ : String) (digO : Option String)
    (g : RNG) (hlen : states.length = cnt + 3) (hle : cnt + 3 ≤ max_actions) :
    (step_deflect_attack max_actions serving states cnt atk dfd digQ digO g).inv
      max_actions states atk dfd := by
  unfold step_deflect_attack
  dsimp only []
  repeat' split
  all_goals simp only [StepRes.inv, rally_end]
  all_goals first
    | exact ⟨by first
          | exact exists_suffix_refl _
          | exact exists_suffix_append _ _
          | exact exists_suffix_append2 _ _ _,
        by first | tauto | exact RNG.choice2_or _ _ _,
        by (try simp only [List.length_append, List.length_cons, List.length_nil]); omega⟩
    | exact ⟨by first
          | exact exists_suffix_refl _
          | exact exists_suffix_append _ _
          | exact exists_suffix_append2 _ _ _,
        by tauto,
        by (try simp only [List.length_append, List.length_cons, List.length_nil]); omega,
        by omega⟩

lemma step_deflect_defense_inv (max_actions : Nat) (tms : String → Team)
    (serving : String) (states : List State) (cnt : Nat) (atk dfd digQ : String)
    (g : RNG) (hlen : states.length = cnt + 3) (hle : cnt + 3 ≤ max_actions) :
    (step_deflect_defense max_actions tms serving states cnt atk dfd digQ g).inv
      max_actions states atk dfd := by
  unfold step_deflect_defense
  dsimp only []
  generalize do_set (tms dfd) "excellent" "block_deflection" g = sres2
  generalize do_attack (tms dfd) sres2.1 sres2.2 = ares2
  repeat' split
  all_goals simp only [StepRes.inv, rally_end]
  all_goals first
    | exact ⟨by first
          | exact exists_suffix_refl _
          | exact exists_suffix_append _ _
          | exact exists_suffix_append2 _ _ _,
        by first | tauto | exact RNG.choice2_or _ _ _,
        by (try simp only [List.length_append, List.length_cons, List.length_nil]); omega⟩
    | exact ⟨by first
          | exact exists_suffix_refl _
          | exact exists_suffix_append _ _
          | exact exists_suffix_append2 _ _ _,
        by tauto,
        by (try simp only [List.length_append, List.length_cons, List.length_nil]); omega,
        by omega⟩

lemma step_other_block_inv (max_actions : Nat) (serving : String)
    (states : List State) (cnt : Nat) (atk dfd : String) (digO : Option String)
    (g : RNG) (hlen : states.length = cnt + 3) (hle : cnt + 3 ≤ max_actions) :
    (step_other_block max_actions serving states cnt atk dfd digO g).inv
      max_actions states atk dfd := by
  unfold step_other_block
  dsimp only []
  repeat' split
  all_goals simp only [StepRes.inv, rally_end]
  all_goals first
    | exact ⟨by first
          | exact exists_suffix_refl _
          | exact exists_suffix_append _ _
          | exact exists_suffix_append2 _ _ _,
        by first | tauto | exact RNG.choice2_or _ _ _,
        by (try simp only [List.length_append, List.length_cons, List.length_nil]); omega⟩
    | exact ⟨by first
          | exact exists_suffix_refl _
          | exact exists_suffix_append _ _
          | exact exists_suffix_append2 _ _ _,
        by tauto,
        by (try simp only [List.length_append, List.length_cons, List.length_nil]); omega,
        by omega⟩

lemma step_defense_inv (max_actions : Nat) (tms : String → Team) (serving : String)
    (states : List State) (cnt : Nat) (atk dfd digQ attackQ : String) (g : RNG)
    (hlen : states.length = cnt + 2) (hle : cnt + 3 ≤ max_actions) :
    (step_defense max_actions tms serving states cnt atk dfd digQ attackQ g).inv
      max_actions states atk dfd := by
  unfold step_defense
  dsimp only []
  generalize do_defense (tms dfd) attackQ g = dres
  repeat' split
  all_goals first
    | exact StepRes.inv_of_suffix _ _ _ _ _ _
        (step_deflect_attack_inv max_actions serving _ cnt atk dfd digQ dres.1.2 dres.2
          (by simp only [List.length_append, List.length_cons, List.length_nil]; omega) hle)
        (exists_suffix_append _ _)
    | exact StepRes.inv_of_suffix _ _ _ _ _ _
        (step_deflect_defense_inv max_actions tms serving _ cnt atk dfd digQ dres.2
          (by simp only [List.length_append, List.length_cons, List.length_nil]; omega) hle)
        (exists_suffix_append _ _)
    | exact StepRes.inv_of_suffix _ _ _ _ _ _
        (step_other_block_inv max_actions serving _ cnt atk dfd dres.1.2 dres.2
          (by simp only [List.length_append, List.length_cons, List.length_nil]; omega) hle)
        (exists_suffix_append _ _)
    | (simp only [StepRes.inv, rally_end]
       exact ⟨by first
            | exact exists_suffix_refl _
            | exact exists_suffix_append _ _
            | exact exists_suffix_append2 _ _ _,
          by first | tauto | exact RNG.choice2_or _ _ _,
          by (try simp only [List.length_append, List.length_cons, List.length_nil]); omega⟩)
    | (simp only [StepRes.inv, rally_end]
       exact ⟨by first
            | exact exists_suffix_refl _
            | exact exists_suffix_append _ _
            | exact exists_suffix_append2 _ _ _,
          by tauto,
          by (try simp only [List.length_append, List.length_cons, List.length_nil]); omega,
          by omega⟩)

lemma continue_rally_step_inv (max_actions : Nat) (tms : String → Team)
    (serving : String) (states : List State) (cnt : Nat) (atk dfd digQ : String)
    (g : RNG) (hlen : states.length = cnt) (hlt : cnt < max_actions) :
    (continue_rally_step max_actions tms serving states cnt atk dfd digQ g).inv
      max_actions states atk dfd := by
  unfold continue_rally_step
  dsimp only []
  generalize do_set (tms atk) digQ "dig" g = sres
  generalize do_attack (tms atk) sres.1 sres.2 = ares
  repeat' split
  all_goals first
    | exact StepRes.inv_of_suffix _ _ _ _ _ _
        (step_defense_inv max_actions tms serving _ cnt atk dfd digQ ares.1 ares.2
          (by simp only [List.length_append, List.length_cons, List.length_nil]; omega)
          (by omega))
        (exists_suffix_append2 _ _ _)
    | (simp only [StepRes.inv, rally_end]
       exact ⟨by first
            | exact exists_suffix_refl _
            | exact exists_suffix_append _ _
            | exact exists_suffix_append2 _ _ _,
          by first | tauto | exact RNG.choice2_or _ _ _,
          by (try simp only [List.length_append, List.length_cons, List.length_nil]); omega⟩)
    | (simp only [StepRes.inv, rally_end]
       exact ⟨by first
            | exact exists_suffix_refl _
            | exact exists_suffix_append _ _
            | exact exists_suffix_append2 _ _ _,
          by tauto,
          by (try simp only [List.length_append, List.length_cons, List.length_nil]); omega,
          by omega⟩)


/-- The while loop of `continue_rally` (state_machine.py:130-300): run the
body while `action_count < max_actions`; once the ceiling is reached, award
the point by RNG coin flip with point_type "rally". -/
def continue_rally_loop (max_actions : Nat) (tms : String → Team) (serving : String)
    (states : List State) (cnt : Nat) (atk dfd digQ : String) (g : RNG) : Point :=
  if _h : cnt < max_actions then
    match hs : continue_rally_step max_actions tms serving states cnt atk dfd digQ g with
    | .done p => p
    | .cont s2 c2 a2 d2 q2 g2 =>
        continue_rally_loop max_actions tms serving s2 c2 a2 d2 q2 g2
  else rally_end states serving atk dfd g
termination_by max_actions - cnt
decreasing_by
  have hc := continue_rally_step_cnt max_actions tms serving states cnt atk dfd digQ g
  rw [hs] at hc
  simp only [StepRes.cntAtLeast] at hc
  omega

/-- `continue_rally` from state_machine.py: set `action_count = len(states)`
and run the continuation loop. -/
def continue_rally (states : List State) (atk dfd : String) (tms : String → Team)
    (serving digQ : String) (g : RNG) (max_actions : Nat) : Point :=
  continue_rally_loop max_actions tms serving states states.length atk dfd digQ g

/-- The fallback at the very end of `simulate_point`
(state_machine.py:559-566): RNG-chosen winner with point_type "rally". -/
def point_fallback (serving cur rec : String) (states : List State) (g : RNG) : Point :=
  ⟨serving, g.choice2 cur rec, "rally", states⟩

/-- Point-level invariant of the rally continuation loop relative to the
state list and roles at entry. -/
def Point.rallyInv (max_actions cnt : Nat) (states : List State) (atk dfd : String)
    (p : Point) : Prop :=
  (∃ rest, p.states = states ++ rest) ∧ (p.winner = atk ∨ p.winner = dfd) ∧
    p.states.length ≤ max cnt max_actions

lemma continue_rally_loop_inv (max_actions : Nat) (tms : String → Team)
    (serving : String) (states : List State) (cnt : Nat) (atk dfd digQ : String)
    (g : RNG) (hlen : cnt = states.length) :
    (continue_rally_loop max_actions tms serving states cnt atk dfd digQ g).rallyInv
      max_actions cnt states atk dfd := by
  rw [continue_rally_loop]
  split
  next hlt =>
    split
    next p heq =>
      have hi := continue_rally_step_inv max_actions tms serving states cnt atk dfd
        digQ g hlen.symm hlt
      rw [heq] at hi
      obtain ⟨he, hw, hl⟩ := hi
      exact ⟨he, hw, le_trans hl (le_max_right _ _)⟩
    next s2 c2 a2 d2 q2 g2 heq =>
      have hi := continue_rally_step_inv max_actions tms serving states cnt atk dfd
        digQ g hlen.symm hlt
      rw [heq] at hi
      obtain ⟨⟨r1, hr1⟩, hroles, hc2len, hc2le⟩ := hi
      have hcnt : cnt + 2 ≤ c2 := by
        have h2 := continue_rally_step_cnt max_actions tms serving states cnt atk dfd
          digQ g
        rw [heq] at h2
        simpa [StepRes.cntAtLeast] using h2
      obtain ⟨⟨r2, hr2⟩, hw, hl⟩ :=
        continue_rally_loop_inv max_actions tms serving s2 c2 a2 d2 q2 g2 hc2len
      refine ⟨⟨r1 ++ r2, by rw [hr2, hr1, List.append_assoc]⟩, ?_, ?_⟩
      · rcases hroles with ⟨ha, hd⟩ | ⟨ha, hd⟩ <;> subst ha <;> subst hd <;> tauto
      · omega
  next hge =>
    refine ⟨⟨[], by simp [rally_end]⟩, RNG.choice2_or _ _ _, ?_⟩
    simp only [rally_end]
    omega
termination_by max_actions - cnt
decreasing_by omega

lemma continue_rally_loop_ceiling (max_actions : Nat) (tms : String → Team)
    (serving : String) (states : List State) (cnt : Nat) (atk dfd digQ : String)
    (g : RNG) (h : max_actions ≤ cnt) :
    continue_rally_loop max_actions tms serving states cnt atk dfd digQ g =
      rally_end states serving atk dfd g := by
  rw [continue_rally_loop]
  rw [dif_neg (by omega)]

/-- Invariant of a point produced by the post-serve machinery, relative to the
two sides `cur`/`rec` and the state list already accumulated. -/
def Point.pinv (cur rec : String) (states : List State) (p : Point) : Prop :=
  (∃ rest, p.states = states ++ rest) ∧ (p.winner = cur ∨ p.winner = rec) ∧
    p.states.length ≤ 100

lemma Point.pinv_of_rallyInv (p : Point) (cur rec : String)
    (states states2 : List State) (cnt : Nat) (atk dfd : String)
    (h : p.rallyInv 100 cnt states2 atk dfd)
    (hsuffix : ∃ ext, states2 = states ++ ext)
    (hatk : atk = cur ∨ atk = rec) (hdfd : dfd = cur ∨ dfd = rec)
    (hcnt : cnt ≤ 100) : p.pinv cur rec states := by
  obtain ⟨ext, rfl⟩ := hsuffix
  obtain ⟨⟨rest, hr⟩, hw, hl⟩ := h
  refine ⟨⟨ext ++ rest, by rw [hr, List.append_assoc]⟩, ?_, by omega⟩
  rcases hw with hw | hw <;> rw [hw] <;> tauto

/-- The defense section of `simulate_point` after a "defended" first attack
(state_machine.py:440-557): block attempt by the serving side, then the
dig / counter-attack dispatch. -/
def serve_block_phase (tms : String → Team) (serving cur rec : String)
    (states : List State) (g : RNG) : Point :=
  let curObj := tms cur
  let recObj := tms rec
  let block_probs := getCond curObj.block_probabilities "power_attack"
  let block_probs := if block_probs = [] then fallbackBlock else block_probs
  let blockO := choose_outcome block_probs g.val
  let g := g.next
  let states := states ++ [⟨cur, "block", blockO⟩]
  if blockO = "stuff" then ⟨serving, cur, "stuff", states⟩
  else if blockO = "deflection_to_attack" then
    let dig_probs := getCond recObj.dig_probabilities "deflected_attack"
    let dig_probs := if dig_probs = [] then fallbackDigDeflection else dig_probs
    let digO := choose_outcome dig_probs g.val
    let g := g.next
    let states := states ++ [⟨rec, "dig", digO⟩]
    if digO = "error" then ⟨serving, cur, "dig_error", states⟩
    else continue_rally states rec cur tms serving digO g 100
  else if blockO = "deflection_to_defense" then
    let sres := do_set curObj "excellent" "block_deflection" g
    let setQ := sres.1
    let g := sres.2
    let states := states ++ [⟨cur, "set", setQ⟩]
    let ares := do_attack curObj setQ g
    let attackQ := ares.1
    let g := ares.2
    let states := states ++ [⟨cur, "attack", attackQ⟩]
    if attackQ = "kill" then ⟨serving, cur, "kill", states⟩
    else if attackQ = "error" then ⟨serving, rec, "attack_error", states⟩
    else if attackQ = "defended" then
      continue_rally states rec cur tms serving "excellent" g 100
    else point_fallback serving cur rec states g
  else
    if g.val < 80/100 then
      let g2 := g.next
      let dig_probs := getCond curObj.dig_probabilities "deflected_attack"
      let dig_probs := if dig_probs = [] then fallbackDigNoTouch else dig_probs
      let digO := choose_outcome dig_probs g2.val
      let g3 := g2.next
      let states := states ++ [⟨cur, "dig", digO⟩]
      if digO = "error" then ⟨serving, rec, "dig_error", states⟩
      else continue_rally states cur rec tms serving digO g3 100
    else ⟨serving, rec, "kill", states⟩

/-- The in-play section of `simulate_point` (state_machine.py:376-557):
receive, set and attack by the receiving side, then the defense dispatch. -/
def serve_in_play (tms : String → Team) (serving cur rec : String)
    (states : List State) (g : RNG) : Point :=
  let recObj := tms rec
  let receive_probs := getCond recObj.receive_probabilities "in_play_serve"
  let receive_probs := if receive_probs = [] then fallbackReceive else receive_probs
  let receiveO := choose_outcome receive_probs g.val
  let g := g.next
  let states := states ++ [⟨rec, "receive", receiveO⟩]
  if receiveO = "error" then ⟨serving, cur, "receive_error", states⟩
  else
    let set_probs := getCond recObj.set_probabilities (receiveO ++ "_reception")
    let set_probs := if set_probs = [] then fallbackSet else set_probs
    let setO := choose_outcome set_probs g.val
    let g := g.next
    let states := states ++ [⟨rec, "set", setO⟩]
    if setO = "error" then ⟨serving, cur, "set_error", states⟩
    else
      let attack_probs := getCond recObj.attack_probabilities (setO ++ "_set")
      let attack_probs := if attack_probs = [] then fallbackAttack else attack_probs
      let attackO := choose_outcome attack_probs g.val
      let g := g.next
      let states := states ++ [⟨rec, "attack", attackO⟩]
      if attackO = "kill" then ⟨serving, rec, "kill", states⟩
      else if attackO = "error" then ⟨serving, cur, "attack_error", states⟩
      else if attackO = "defended" then serve_block_phase tms serving cur rec states g
      else point_fallback serving cur rec states g

/-- `simulate_point` from state_machine.py, with the seeded `random.Random`
replaced by the explicit draw stream `g`.  `none` models the `ValueError`
raised for a serving team outside {A, B}. -/
def simulate_point (team_a team_b : Team) (serving_team : String) (g : RNG) :
    Option Point :=
  if ¬(serving_team = "A" ∨ serving_team = "B") then none
  else some (
    let current := serving_team
    let receiving := if serving_team = "A" then "B" else "A"
    let tms : String → Team := fun s => if s = "A" then team_a else team_b
    let curObj := tms current
    let serveO := choose_outcome curObj.serve_probabilities g.val
    let g := g.next
    let states := [(⟨current, "serve", serveO⟩ : State)]
    if serveO = "ace" then ⟨serving_team, current, "ace", states⟩
    else if serveO = "error" then ⟨serving_team, receiving, "serve_error", states⟩
    else if serveO = "in_play" then serve_in_play tms serving_team current receiving states g
    else point_fallback serving_team current receiving states g)


lemma exists_suffix_append3 (s t u v : List State) :
    ∃ r, s ++ t ++ u ++ v = s ++ r :=
  ⟨t ++ u ++ v, by simp [List.append_assoc]⟩

lemma Point.pinv_of_suffix (p : Point) (cur rec : String)
    (states states2 : List State) (h : p.pinv cur rec states2)
    (he : ∃ ext, states2 = states ++ ext) : p.pinv cur rec states := by
  obtain ⟨ext, rfl⟩ := he
  obtain ⟨⟨rest, hr⟩, hw, hl⟩ := h
  exact ⟨⟨ext ++ rest, by rw [hr, List.append_assoc]⟩, hw, hl⟩

lemma serve_block_phase_inv (tms : String → Team) (serving cur rec : String)
    (states : List State) (g : RNG) (hl : states.length + 3 ≤ 100) :
    (serve_block_phase tms serving cur rec states g).pinv cur rec states := by
  unfold serve_block_phase continue_rally
  dsimp only []
  repeat' split
  all_goals first
    | exact Point.pinv_of_rallyInv _ _ _ _ _ _ _ _
        (continue_rally_loop_inv 100 tms serving _ _ _ _ _ _ rfl)
        (by first
          | exact exists_suffix_append _ _
          | exact exists_suffix_append2 _ _ _
          | exact exists_suffix_append3 _ _ _ _)
        (by tauto) (by tauto)
        (by simp only [List.length_append, List.length_cons, List.length_nil]; omega)
    | (simp only [Point.pinv, point_fallback]
       exact ⟨by first
            | exact exists_suffix_refl _
            | exact exists_suffix_append _ _
            | exact exists_suffix_append2 _ _ _
            | exact exists_suffix_append3 _ _ _ _,
          by first | tauto | exact RNG.choice2_or _ _ _,
          by (try simp only [List.length_append, List.length_cons, List.length_nil]); omega⟩)

set_option maxHeartbeats 1000000 in
lemma serve_in_play_inv (tms : String → Team) (serving cur rec : String)
    (states : List State) (g : RNG) (hl : states.length + 6 ≤ 100) :
    (serve_in_play tms serving cur rec states g).pinv cur rec states := by
  unfold serve_in_play
  dsimp only []
  repeat' split
  all_goals first
    | exact Point.pinv_of_suffix _ _ _ _ _
        (serve_block_phase_inv tms serving cur rec _ _
          (by simp only [List.length_append, List.length_cons, List.length_nil]; omega))
        (by first
          | exact exists_suffix_append _ _
          | exact exists_suffix_append2 _ _ _
          | exact exists_suffix_append3 _ _ _ _)
    | (simp only [Point.pinv, point_fallback]
       exact ⟨by first
            | exact exists_suffix_refl _
            | exact exists_suffix_append _ _
            | exact exists_suffix_append2 _ _ _
            | exact exists_suffix_append3 _ _ _ _,
          by first | tauto | exact RNG.choice2_or _ _ _,
          by (try simp only [List.length_append, List.length_cons, List.length_nil]); omega⟩)

lemma Point.spec_of_pinv (p : Point) (cur rec serving sq : String)
    (hp : p.pinv cur rec [⟨serving, "serve", sq⟩])
    (hcur : cur = "A" ∨ cur = "B") (hrec : rec = "A" ∨ rec = "B") :
    (∃ q rest, p.states = ⟨serving, "serve", q⟩ :: rest) ∧
      (p.winner = "A" ∨ p.winner = "B") ∧ p.states.length ≤ 100 := by
  obtain ⟨⟨rest, hr⟩, hw, hl⟩ := hp
  exact ⟨⟨sq, rest, by simpa using hr⟩,
    by rcases hw with hw | hw <;> rw [hw] <;> tauto, hl⟩

lemma simulate_point_spec (ta tb : Team) (serving : String) (g : RNG)
    (hs : serving = "A" ∨ serving = "B") :
    ∃ p, simulate_point ta tb serving g = some p ∧
      (∃ q rest, p.states = ⟨serving, "serve", q⟩ :: rest) ∧
      (p.winner = "A" ∨ p.winner = "B") ∧ p.states.length ≤ 100 := by
  have hrec : (if serving = "A" then "B" else "A") = "A" ∨
      (if serving = "A" then "B" else "A") = "B" := by split <;> simp
  unfold simulate_point
  rw [if_neg (not_not_intro hs)]
  refine ⟨_, rfl, ?_⟩
  dsimp only []
  generalize hrv : (if serving = "A" then "B" else "A") = rec at hrec
  repeat' split
  all_goals first
    | exact Point.spec_of_pinv _ _ _ _ _
        (serve_in_play_inv _ serving serving rec _ _ (by simp)) hs hrec
    | (try simp only [point_fallback]
       refine ⟨⟨_, [], rfl⟩, ?_, by simp⟩
       first
        | exact hs
        | exact hrec
        | (rcases RNG.choice2_or _ serving rec with hw | hw <;> rw [hw] <;> tauto))

/-- `abs` on rationals in the kernel-reducible if-form used by the embedded
validators (Python's `abs`). -/
def ratAbs (x : ℚ) : ℚ := if x < 0 then -x else x

lemma ratAbs_eq_abs (x : ℚ) : ratAbs x = |x| := by
  unfold ratAbs
  split
  next h => rw [abs_of_neg h]
  next h => rw [abs_of_nonneg (le_of_not_lt h)]

/-- `validate_probability_distribution` from `bvsim_core/validation.py`,
as the predicate "the returned error list is empty": the table is non-empty,
every probability lies in [0, 1], and the total is within 0.001 of 1. -/
def validate_probability_distribution (probs : Dist) : Bool :=
  if probs = [] then false
  else probs.all (fun kv => decide (0 ≤ kv.2) && decide (kv.2 ≤ 1)) &&
    decide (ratAbs ((probs.map Prod.snd).sum - 1) ≤ 1/1000)

/-- `validate_conditional_distribution` from validation.py as "no errors":
non-empty, and every condition's distribution validates. -/
def validate_conditional_distribution (cond : CondDist) : Bool :=
  if cond = [] then false
  else cond.all (fun kv => validate_probability_distribution kv.2)

/-- `validate_team_configuration` from validation.py as "no errors": non-empty
name, valid serve distribution, and valid conditional tables. -/
def validate_team_configuration (team : Team) : Bool :=
  decide (¬team.name = "") &&
  validate_probability_distribution team.serve_probabilities &&
  validate_conditional_distribution team.receive_probabilities &&
  validate_conditional_distribution team.set_probabilities &&
  validate_conditional_distribution team.attack_probabilities &&
  validate_conditional_distribution team.block_probabilities &&
  validate_conditional_distribution team.dig_probabilities

/-- The Basic template team (the literal defaults in `bvsim_core/team.py`
`from_dict`, mirroring `bvsim_cli/templates.py`). -/
def basicTeam : Team :=
  ⟨"Basic",
   [("ace", 1/10), ("in_play", 85/100), ("error", 5/100)],
   [("in_play_serve",
     [("excellent", 35/100), ("good", 40/100), ("poor", 20/100), ("error", 5/100)])],
   [("excellent_reception",
     [("excellent", 69/100), ("good", 25/100), ("poor", 5/100), ("error", 1/100)]),
    ("good_reception",
     [("excellent", 28/100), ("good", 60/100), ("poor", 10/100), ("error", 2/100)]),
    ("poor_reception",
     [("excellent", 5/100), ("good", 25/100), ("poor", 67/100), ("error", 3/100)])],
   [("excellent_set", [("kill", 70/100), ("error", 15/100), ("defended", 15/100)]),
    ("good_set", [("kill", 55/100), ("error", 20/100), ("defended", 25/100)]),
    ("poor_set", [("kill", 30/100), ("error", 35/100), ("defended", 35/100)])],
   [("power_attack",
     [("stuff", 20/100), ("deflection_to_attack", 15/100),
      ("deflection_to_defense", 15/100), ("no_touch", 50/100)])],
   [("deflected_attack",
     [("excellent", 30/100), ("good", 40/100), ("poor", 25/100), ("error", 5/100)])]⟩

lemma basicTeam_valid : validate_team_configuration basicTeam = true := by
  simp only [validate_team_configuration, validate_probability_distribution,
    validate_conditional_distribution, basicTeam, ratAbs, List.all_cons, List.all_nil,
    Bool.and_eq_true, decide_eq_true_iff, List.map_cons, List.map_nil, List.sum_cons,
    List.sum_nil, if_false, Bool.and_true, Bool.true_and, ne_eq, reduceCtorEq]
  repeat' apply And.intro
  all_goals first | decide | norm_num

/-- C2: for every pair of valid teams, every servingTeam in {A,B} and every
seed-derived draw stream, the Point returned by simulate_point has winner in
{"A","B"}, a non-empty states list, and its first state has action "serve"
and team equal to the serving team. -/
theorem simulate_point_invariants (ta tb : Team) (serving : String) (g : RNG)
    (hs : serving = "A" ∨ serving = "B")
    (hva : validate_team_configuration ta = true)
    (hvb : validate_team_configuration tb = true) :
    ∃ p, simulate_point ta tb serving g = some p ∧
      (p.winner = "A" ∨ p.winner = "B") ∧ p.states ≠ [] ∧
      (∃ q rest, p.states = ⟨serving, "serve", q⟩ :: rest) := by
  obtain ⟨p, hp, hserve, hw, _⟩ := simulate_point_spec ta tb serving g hs
  refine ⟨p, hp, hw, ?_, hserve⟩
  obtain ⟨q, rest, hq⟩ := hserve
  simp [hq]

theorem simulate_point_invariants_witness :
    (("A" : String) = "A" ∨ ("A" : String) = "B") ∧
    validate_team_configuration basicTeam = true ∧
    (∃ p, simulate_point basicTeam basicTeam "A" ⟨fun _ => 0, 0⟩ = some p ∧
      (p.winner = "A" ∨ p.winner = "B") ∧ p.states ≠ [] ∧
      (∃ q rest, p.states = ⟨"A", "serve", q⟩ :: rest)) :=
  ⟨Or.inl rfl, basicTeam_valid,
    simulate_point_invariants basicTeam basicTeam "A" ⟨fun _ => 0, 0⟩ (Or.inl rfl)
      basicTeam_valid basicTeam_valid⟩

/-- C3: the rally continuation loop always terminates (the embedding is a
total function), the simulated point's total action count never exceeds the
hard ceiling of 100, and entering the loop at or beyond the ceiling yields a
point with point_type "rally" whose winner is RNG-chosen among the two
rallying teams; no exception is raised (the result is `some`). -/
theorem simulate_point_action_ceiling (ta tb : Team) (serving : String) (g : RNG)
    (hs : serving = "A" ∨ serving = "B")
    (hva : validate_team_configuration ta = true)
    (hvb : validate_team_configuration tb = true) :
    (∃ p, simulate_point ta tb serving g = some p ∧ p.states.length ≤ 100) ∧
    (∀ (tms : String → Team) (states : List State) (cnt : Nat)
        (atk dfd digQ : String) (g2 : RNG), 100 ≤ cnt →
      (continue_rally_loop 100 tms serving states cnt atk dfd digQ g2).point_type =
        "rally" ∧
      ((continue_rally_loop 100 tms serving states cnt atk dfd digQ g2).winner = atk ∨
        (continue_rally_loop 100 tms serving states cnt atk dfd digQ g2).winner = dfd)) := by
  constructor
  · obtain ⟨p, hp, _, _, hl⟩ := simulate_point_spec ta tb serving g hs
    exact ⟨p, hp, hl⟩
  · intro tms states cnt atk dfd digQ g2 hc
    rw [continue_rally_loop_ceiling 100 tms serving states cnt atk dfd digQ g2 hc]
    exact ⟨rfl, RNG.choice2_or _ _ _⟩

theorem simulate_point_action_ceiling_witness :
    (("A" : String) = "A" ∨ ("A" : String) = "B") ∧
    validate_team_configuration basicTeam = true ∧
    ((∃ p, simulate_point basicTeam basicTeam "A" ⟨fun _ => 0, 0⟩ = some p ∧
        p.states.length ≤ 100) ∧
     (∀ (tms : String → Team) (states : List State) (cnt : Nat)
        (atk dfd digQ : String) (g2 : RNG), 100 ≤ cnt →
      (continue_rally_loop 100 tms "A" states cnt atk dfd digQ g2).point_type =
        "rally" ∧
      ((continue_rally_loop 100 tms "A" states cnt atk dfd digQ g2).winner = atk ∨
        (continue_rally_loop 100 tms "A" states cnt atk dfd digQ g2).winner = dfd))) :=
  ⟨Or.inl rfl, basicTeam_valid,
    simulate_point_action_ceiling basicTeam basicTeam "A" ⟨fun _ => 0, 0⟩ (Or.inl rfl)
      basicTeam_valid basicTeam_valid⟩

/-- C4: `simulate_point` is a pure function of the two teams, the serving
side and the seed-determined draw stream (`random.Random(seed)` yields the
same stream for equal seeds, modelled by `mkStream`), so two calls with the
same fixed seed return identical Point objects. -/
theorem simulate_point_deterministic (ta tb : Team) (mkStream : Int → Nat → ℚ)
    (s : Int) (hva : validate_team_configuration ta = true)
    (hvb : validate_team_configuration tb = true) :
    simulate_point ta tb "A" ⟨mkStream s, 0⟩ =
      simulate_point ta tb "A" ⟨mkStream s, 0⟩ := rfl

theorem simulate_point_deterministic_witness :
    validate_team_configuration basicTeam = true ∧
    simulate_point basicTeam basicTeam "A" ⟨(fun _ _ => 0) (0 : Int), 0⟩ =
      simulate_point basicTeam basicTeam "A" ⟨(fun _ _ => 0) (0 : Int), 0⟩ :=
  ⟨basicTeam_valid,
    simulate_point_deterministic basicTeam basicTeam (fun _ _ => 0) 0
      basicTeam_valid basicTeam_valid⟩

/-! ## The repeated-trial win-rate estimator (`bvsim_stats/analysis.py`) -/

/-- The serving side of trial `i` in `_calculate_win_rate`
(analysis.py:643): `base_serving` on even trial indices, the opposite side
on odd ones. -/
def trial_serving (base_serving : String) (i : Nat) : String :=
  if i % 2 = 0 then base_serving else if base_serving = "A" then "B" else "A"

/-- The trial loop of `_calculate_win_rate` (analysis.py:639-646): the number
of points won by "A" over trials `0..n-1`, each simulated with its own
unseeded stream (`seed=None` builds a fresh `random.Random` per point, here
`streams i`).  `none` models an exception escaping a trial. -/
def win_rate_trials (team_a team_b : Team) (base_serving : String)
    (streams : Nat → RNG) : Nat → Option Nat
  | 0 => some 0
  | n+1 => do
      let wins ← win_rate_trials team_a team_b base_serving streams n
      let p ← simulate_point team_a team_b (trial_serving base_serving n) (streams n)
      pure (wins + if p.winner = "A" then 1 else 0)

/-- `_calculate_win_rate` from `bvsim_stats/analysis.py:637-648`: returns
`(wins / num_points) * 100` when `num_points > 0` and `0` otherwise. -/
def calculate_win_rate (team_a team_b : Team) (num_points : Nat)
    (base_serving : String) (streams : Nat → RNG) : Option ℚ :=
  (win_rate_trials team_a team_b base_serving streams num_points).map
    (fun (wins : Nat) => if 0 < num_points then ((wins : ℚ) / num_points) * 100 else 0)

/-- Specification-side count for C5: how many of the trials `0..n-1` produce a
point won by team A, with the alternating serving sides. -/
def spec_wins_for_A (team_a team_b : Team) (base_serving : String)
    (streams : Nat → RNG) (n : Nat) : Nat :=
  (List.range n).countP (fun i =>
    match simulate_point team_a team_b (trial_serving base_serving i) (streams i) with
    | some p => decide (p.winner = "A")
    | none => false)

lemma trial_serving_valid (base_serving : String) (i : Nat)
    (hb : base_serving = "A" ∨ base_serving = "B") :
    trial_serving base_serving i = "A" ∨ trial_serving base_serving i = "B" := by
  unfold trial_serving
  split
  · exact hb
  · split <;> simp

lemma win_rate_trials_eq (team_a team_b : Team) (base_serving : String)
    (streams : Nat → RNG) (hb : base_serving = "A" ∨ base_serving = "B") :
    ∀ n, win_rate_trials team_a team_b base_serving streams n =
      some (spec_wins_for_A team_a team_b base_serving streams n)
  | 0 => by simp [win_rate_trials, spec_wins_for_A]
  | n+1 => by
      obtain ⟨p, hp, _⟩ := simulate_point_spec team_a team_b
        (trial_serving base_serving n) (streams n) (trial_serving_valid _ n hb)
      rw [win_rate_trials, win_rate_trials_eq team_a team_b base_serving streams hb n]
      simp only [spec_wins_for_A, List.range_succ, List.countP_append, List.countP_cons,
        List.countP_nil, hp, Option.bind_eq_bind, Option.some_bind]
      rcases eq_or_ne p.winner "A" with hw | hw <;> simp [hw]

/-- C5 (amended): over `n` trials the estimator serves with `base_serving` on
even trial indices and the opposite side on odd indices and returns
`100 × (points won by A) / n`; for `n = 0` it returns `0` (not `50.0` as the
specification claims). -/
theorem calculate_win_rate_formula (team_a team_b : Team) (n : Nat)
    (base_serving : String) (streams : Nat → RNG)
    (hb : base_serving = "A" ∨ base_serving = "B") :
    calculate_win_rate team_a team_b n base_serving streams =
      some (if n = 0 then 0
        else 100 * (spec_wins_for_A team_a team_b base_serving streams n : ℚ) / n) := by
  unfold calculate_win_rate
  rw [win_rate_trials_eq team_a team_b base_serving streams hb n]
  rcases Nat.eq_zero_or_pos n with hn | hn
  · subst hn; simp
  · rw [Option.map_some', if_pos hn, if_neg (Nat.pos_iff_ne_zero.mp hn),
      div_mul_eq_mul_div, mul_comm]

theorem calculate_win_rate_formula_witness :
    (("A" : String) = "A" ∨ ("A" : String) = "B") ∧
    calculate_win_rate basicTeam basicTeam 2 "A" (fun _ => ⟨fun _ => 0, 0⟩) =
      some (if (2 : Nat) = 0 then 0
        else 100 * (spec_wins_for_A basicTeam basicTeam "A" (fun _ => ⟨fun _ => 0, 0⟩) 2 : ℚ) / 2) :=
  ⟨Or.inl rfl,
    calculate_win_rate_formula basicTeam basicTeam 2 "A" (fun _ => ⟨fun _ => 0, 0⟩)
      (Or.inl rfl)⟩

/-- C5 counterexample: with zero trials `_calculate_win_rate` returns 0, not
the 50.0 the claim states. -/
theorem calculate_win_rate_zero_trials_cex :
    calculate_win_rate basicTeam basicTeam 0 "A" (fun _ => ⟨fun _ => 0, 0⟩) = some 0 ∧
    (0 : ℚ) ≠ 50 := ⟨rfl, by norm_num⟩

/-! ## Distribution renormalization on perturbation (`bvsim_stats/analysis.py`) -/

/-- Python `parent_dist.get(key)` on an insertion-ordered dict. -/
def distLookup (d : Dist) (k : String) : Option ℚ :=
  (d.find? (fun kv => kv.1 = k)).map (fun kv => kv.2)

/-- Python dict assignment `parent_dist[key] = v`: replace in place when the
key exists (insertion order kept), else append at the end. -/
def distSet (d : Dist) (k : String) (v : ℚ) : Dist :=
  if d.any (fun kv => decide (kv.1 = k)) then
    d.map (fun kv => if kv.1 = k then (kv.1, v) else kv)
  else d ++ [(k, v)]

/-- `_adjust_probability_distribution` from analysis.py:651-716, acting on
the parent distribution addressed by the dotted parameter path (every
`set_nested_value` in the function writes inside this one distribution, so
the rest of `team_data` is unchanged either way and the distribution-level
embedding captures the function).  The non-dict-parent and missing-path
(KeyError) branches just set the value and are outside this model.  A dict
has unique keys, so reading `parent_dist[key]` per other key is the entry's
own value. -/
def adjust_probability_distribution (parent_dist : Dist) (target_key : String)
    (new_value : ℚ) : Dist :=
  let old_value := (distLookup parent_dist target_key).getD 0
  let adjustment := new_value - old_value
  if ratAbs adjustment < 1/1000 then parent_dist
  else
    let other_keys := (parent_dist.map Prod.fst).filter (fun k => k ≠ target_key)
    if other_keys = [] then distSet parent_dist target_key new_value
    else
      let other_sum := (other_keys.map (fun k => (distLookup parent_dist k).getD 0)).sum
      if other_sum ≤ 0 then distSet parent_dist target_key new_value
      else
        let remaining0 := 1 - new_value
        let remaining_probability := if remaining0 < 0 then 0 else remaining0
        let scaled := parent_dist.map (fun kv =>
          if kv.1 = target_key then kv
          else (kv.1, max 0 ((kv.2 / other_sum) * remaining_probability)))
        distSet scaled target_key new_value

/-- The running example distribution of §8 of the specification
({ace: 0.10, in_play: 0.85, error: 0.05}). -/
def exampleServeDist : Dist := [("ace", 1/10), ("in_play", 85/100), ("error", 5/100)]

/-- C10: if the target leaf's new value differs from its old value by strictly
less than 0.001, the renormalization returns the data completely unchanged:
the target keeps its old value and no other key is rescaled. -/
theorem adjust_distribution_guard_unchanged (d : Dist) (t : String) (v : ℚ)
    (h : ratAbs (v - (distLookup d t).getD 0) < 1/1000) :
    adjust_probability_distribution d t v = d := by
  unfold adjust_probability_distribution
  rw [if_pos h]

theorem adjust_distribution_guard_unchanged_witness :
    ratAbs ((2001/20000 : ℚ) - (distLookup exampleServeDist "ace").getD 0) < 1/1000 ∧
    adjust_probability_distribution exampleServeDist "ace" (2001/20000) =
      exampleServeDist := by
  have h : ratAbs ((2001/20000 : ℚ) - (distLookup exampleServeDist "ace").getD 0) <
      1/1000 := by
    simp only [exampleServeDist, distLookup, List.find?_cons_of_pos, Option.map_some,
      Option.getD_some, ratAbs, decide_eq_true_eq]
    norm_num
  exact ⟨h, adjust_distribution_guard_unchanged exampleServeDist "ace" (2001/20000) h⟩

lemma find?_key_of_mem (d : Dist) (hnodup : (d.map Prod.fst).Nodup)
    {kv : String × ℚ} (hm : kv ∈ d) :
    d.find? (fun x => x.1 = kv.1) = some kv := by
  induction d with
  | nil => simp at hm
  | cons hd tl ih =>
      simp only [List.map_cons, List.nodup_cons] at hnodup
      rcases List.mem_cons.mp hm with rfl | hm2
      · exact List.find?_cons_of_pos _ (by simp)
      · have hne : ¬ hd.1 = kv.1 := fun he =>
          hnodup.1 (he ▸ List.mem_map_of_mem Prod.fst hm2)
        rw [List.find?_cons_of_neg _ (by simp [hne])]
        exact ih hnodup.2 hm2

lemma find?_map_keyfun (d : Dist) (m : String × ℚ → String × ℚ)
    (hkey : ∀ kv, (m kv).1 = kv.1) (k : String) :
    (d.map m).find? (fun kv => kv.1 = k) =
      (d.find? (fun kv => kv.1 = k)).map m := by
  induction d with
  | nil => simp
  | cons hd tl ih =>
      simp only [List.map_cons]
      by_cases hk : hd.1 = k
      · rw [List.find?_cons_of_pos _ (by simp [hkey, hk]),
          List.find?_cons_of_pos _ (by simp [hk])]
        simp
      · rw [List.find?_cons_of_neg _ (by simp [hkey, hk]),
          List.find?_cons_of_neg _ (by simp [hk])]
        exact ih

lemma filter_map_keyfun (d : Dist) (m : String × ℚ → String × ℚ)
    (hkey : ∀ kv, (m kv).1 = kv.1) (t : String) :
    (d.map m).filter (fun kv => kv.1 ≠ t) =
      (d.filter (fun kv => kv.1 ≠ t)).map m := by
  induction d with
  | nil => simp
  | cons hd tl ih =>
      simp only [List.map_cons, List.filter_cons, hkey]
      by_cases hk : hd.1 = t
      · simpa [hk] using ih
      · simpa [hk] using ih

lemma sum_lookup_eq_filter (d : Dist) (t : String)
    (hnodup : (d.map Prod.fst).Nodup) :
    ((((d.map Prod.fst).filter (fun k => k ≠ t)).map
        (fun k => (distLookup d k).getD 0)).sum) =
      ((d.filter (fun kv => kv.1 ≠ t)).map Prod.snd).sum := by
  have h1 : (d.map Prod.fst).filter (fun k => k ≠ t) =
      (d.filter (fun kv => kv.1 ≠ t)).map Prod.fst := by
    rw [List.filter_map]
    rfl
  rw [h1, List.map_map]
  refine congrArg List.sum (List.map_congr_left ?_)
  intro kv hkv
  have hm := List.mem_of_mem_filter hkv
  simp [distLookup, find?_key_of_mem d hnodup hm]

/-- The rescaling map applied by `_adjust_probability_distribution` in its
main branch: the target key is set to the new value, every other entry is
scaled by `old / other_sum` towards the remaining mass. -/
def adjustEntry (t : String) (v S R : ℚ) (kv : String × ℚ) : String × ℚ :=
  if kv.1 = t then (kv.1, v) else (kv.1, max 0 ((kv.2 / S) * R))

lemma adjustEntry_key (t : String) (v S R : ℚ) (kv : String × ℚ) :
    (adjustEntry t v S R kv).1 = kv.1 := by
  unfold adjustEntry; split <;> rfl

lemma adjust_main_branch (d : Dist) (t : String) (v : ℚ)
    (hmem : t ∈ d.map Prod.fst)
    (hguard : ¬ ratAbs (v - (distLookup d t).getD 0) < 1/1000)
    (hne : (d.map Prod.fst).filter (fun k => k ≠ t) ≠ [])
    (hpos : ¬ ((((d.map Prod.fst).filter (fun k => k ≠ t)).map
        (fun k => (distLookup d k).getD 0)).sum ≤ 0)) :
    adjust_probability_distribution d t v =
      d.map (adjustEntry t v
        ((((d.map Prod.fst).filter (fun k => k ≠ t)).map
          (fun k => (distLookup d k).getD 0)).sum)
        (if 1 - v < 0 then 0 else 1 - v)) := by
  unfold adjust_probability_distribution
  rw [if_neg hguard, if_neg hne, if_neg hpos]
  unfold distSet
  rw [if_pos]
  · rw [List.map_map]
    refine List.map_congr_left ?_
    intro kv _
    by_cases hk : kv.1 = t
    · simp [adjustEntry, hk]
    · simp [adjustEntry, hk]
  · rw [List.any_map]
    refine List.any_eq_true.mpr ?_
    obtain ⟨kv, hkv, hk⟩ := List.mem_map.mp hmem
    refine ⟨kv, hkv, ?_⟩
    simp [Function.comp_apply, hk]

/-- C6 counterexample: perturbing ace from 0.10 to 0.10005 (a change smaller
than the 0.001 guard) leaves the distribution unchanged, so the target leaf is
not set to the new value as the claim universally states. -/
theorem adjust_distribution_small_change_cex :
    ¬ (distLookup (adjust_probability_distribution exampleServeDist "ace"
        (2001/20000)) "ace" = some (2001/20000)) := by
  have h : ratAbs ((2001/20000 : ℚ) - (distLookup exampleServeDist "ace").getD 0) <
      1/1000 := by
    simp only [exampleServeDist, distLookup, List.find?_cons_of_pos, Option.map_some,
      Option.getD_some, ratAbs, decide_eq_true_eq]
    norm_num
  unfold adjust_probability_distribution
  rw [if_pos h]
  simp only [exampleServeDist, distLookup, List.find?_cons_of_pos, Option.map_some,
    Option.some.injEq, decide_eq_true_eq]
  norm_num

/-- C6 (amended): provided the new value differs from the old one by at least
the 0.001 no-op guard (changes below it return the data unchanged), the
renormalization sets the target leaf to v_new and rescales every other key by
old_other / sum_of_others so the others sum to remaining = max(0, 1 − v_new);
if there are no other keys, or the others sum to at most 0, only the target is
set.  In particular perturbing ace 0.10 → 0.20 in {ace: 0.10, in_play: 0.85,
error: 0.05} gives a distribution summing to 1.0 ± 1e-6 with the
in_play : error ratio 17:1 preserved. -/
theorem adjust_distribution_renormalizes (d : Dist) (t : String) (v : ℚ)
    (hnodup : (d.map Prod.fst).Nodup) (hnonneg : ∀ kv ∈ d, 0 ≤ kv.2)
    (hmem : t ∈ d.map Prod.fst)
    (hguard : 1/1000 ≤ ratAbs (v - (distLookup d t).getD 0)) :
    (((d.map Prod.fst).filter (fun k => k ≠ t) = [] ∨
        (((d.map Prod.fst).filter (fun k => k ≠ t)).map
          (fun k => (distLookup d k).getD 0)).sum ≤ 0) →
      adjust_probability_distribution d t v = distSet d t v) ∧
    ((((d.map Prod.fst).filter (fun k => k ≠ t)) ≠ [] →
      0 < (((d.map Prod.fst).filter (fun k => k ≠ t)).map
          (fun k => (distLookup d k).getD 0)).sum →
      (distLookup (adjust_probability_distribution d t v) t = some v ∧
       (∀ kv ∈ d, kv.1 ≠ t →
         distLookup (adjust_probability_distribution d t v) kv.1 =
           some ((kv.2 /
             (((d.map Prod.fst).filter (fun k => k ≠ t)).map
               (fun k => (distLookup d k).getD 0)).sum) * max 0 (1 - v))) ∧
       (((adjust_probability_distribution d t v).filter
           (fun kv => kv.1 ≠ t)).map Prod.snd).sum = max 0 (1 - v)))) ∧
    (ratAbs (((adjust_probability_distribution exampleServeDist "ace" (1/5)).map
        Prod.snd).sum - 1) ≤ 1/1000000 ∧
     (distLookup (adjust_probability_distribution exampleServeDist "ace" (1/5))
        "in_play").getD 0 =
       17 * (distLookup (adjust_probability_distribution exampleServeDist "ace"
        (1/5)) "error").getD 0) := by
  have hR : (if 1 - v < 0 then 0 else 1 - v) = max 0 (1 - v) := by
    rcases lt_or_le (1 - v) 0 with h | h
    · rw [if_pos h, max_eq_left h.le]
    · rw [if_neg (not_lt.mpr h), max_eq_right h]
  refine ⟨?_, ?_, ?_⟩
  · intro hcase
    unfold adjust_probability_distribution
    rw [if_neg (not_lt.mpr hguard)]
    rcases hcase with hck | hcs
    · rw [if_pos hck]
    · by_cases hck : (d.map Prod.fst).filter (fun k => k ≠ t) = []
      · rw [if_pos hck]
      · rw [if_neg hck, if_pos hcs]
  · intro hne hpos
    have hbranch := adjust_main_branch d t v hmem (not_lt.mpr hguard) hne
      (not_le.mpr hpos)
    have hSpos := hpos
    have hfil := sum_lookup_eq_filter d t hnodup
    refine ⟨?_, ?_, ?_⟩
    · rw [hbranch]
      unfold distLookup
      rw [find?_map_keyfun _ _ (adjustEntry_key _ _ _ _)]
      obtain ⟨kv, hkv, hk⟩ := List.mem_map.mp hmem
      have := find?_key_of_mem d hnodup hkv
      rw [hk] at this
      rw [this]
      simp [adjustEntry, hk]
    · intro kv hkv hkne
      rw [hbranch]
      unfold distLookup
      rw [find?_map_keyfun _ _ (adjustEntry_key _ _ _ _)]
      rw [find?_key_of_mem d hnodup hkv]
      have hnn : 0 ≤ (kv.2 /
          (((d.map Prod.fst).filter (fun k => k ≠ t)).map
            (fun k => (distLookup d k).getD 0)).sum) * max 0 (1 - v) :=
        mul_nonneg (div_nonneg (hnonneg kv hkv) hpos.le) (le_max_left _ _)
      simp only [Option.map_some', Option.some.injEq, adjustEntry, if_neg hkne, hR]
      exact max_eq_right hnn
    · rw [hbranch]
      rw [filter_map_keyfun _ _ (adjustEntry_key _ _ _ _), List.map_map]
      have hptwise : ∀ kv ∈ d.filter (fun kv => kv.1 ≠ t),
          (Prod.snd ∘ adjustEntry t v
            ((((d.map Prod.fst).filter (fun k => k ≠ t)).map
              (fun k => (distLookup d k).getD 0)).sum)
            (if 1 - v < 0 then 0 else 1 - v)) kv =
          kv.2 * (max 0 (1 - v) /
            ((((d.map Prod.fst).filter (fun k => k ≠ t)).map
              (fun k => (distLookup d k).getD 0)).sum)) := by
        intro kv hkv
        have hkne : ¬ kv.1 = t := by
          have := List.of_mem_filter hkv
          simpa using this
        have hmm := List.mem_of_mem_filter hkv
        have hnn : 0 ≤ (kv.2 /
            (((d.map Prod.fst).filter (fun k => k ≠ t)).map
              (fun k => (distLookup d k).getD 0)).sum) * max 0 (1 - v) :=
          mul_nonneg (div_nonneg (hnonneg kv hmm) hpos.le) (le_max_left _ _)
        simp only [Function.comp_apply, adjustEntry, if_neg hkne, hR]
        rw [max_eq_right hnn, div_mul_eq_mul_div, mul_div_assoc]
      have hs0 : ((d.filter (fun kv => kv.1 ≠ t)).map Prod.snd).sum ≠ 0 := by
        rw [← hfil]; exact ne_of_gt hpos
      rw [List.map_congr_left hptwise, List.sum_map_mul_right, hfil]
      rw [mul_comm, div_mul_eq_mul_div, mul_div_assoc, div_self hs0, mul_one]
  · have hguard5 : ¬ ratAbs ((1/5 : ℚ) -
        (distLookup exampleServeDist "ace").getD 0) < 1/1000 := by
      simp only [exampleServeDist, distLookup, List.find?_cons_of_pos,
        Option.map_some, Option.getD_some, ratAbs, decide_eq_true_eq]
      norm_num
    have hne5 : (exampleServeDist.map Prod.fst).filter (fun k => k ≠ "ace") ≠ [] := by
      decide
    have hsum5 : ((((exampleServeDist.map Prod.fst).filter
        (fun k => k ≠ "ace")).map
        (fun k => (distLookup exampleServeDist k).getD 0)).sum) =
        85/100 + (5/100 + 0) := rfl
    have hpos5 : ¬ ((((exampleServeDist.map Prod.fst).filter
        (fun k => k ≠ "ace")).map
        (fun k => (distLookup exampleServeDist k).getD 0)).sum ≤ 0) := by
      rw [hsum5]; norm_num
    have hd5 := adjust_main_branch exampleServeDist "ace" (1/5) (by decide)
      hguard5 hne5 hpos5
    have hd5' : adjust_probability_distribution exampleServeDist "ace" (1/5) =
        [("ace", 1/5), ("in_play", 34/45), ("error", 2/45)] := by
      rw [hd5, hsum5]
      simp only [exampleServeDist, List.map_cons, List.map_nil, adjustEntry]
      norm_num [max_def]
      decide
    rw [hd5']
    constructor
    · show ratAbs ((1/5 + (34/45 + (2/45 + 0))) - 1) ≤ 1/1000000
      simp only [ratAbs]
      norm_num
    · show (34/45 : ℚ) = 17 * (2/45)
      norm_num

theorem adjust_distribution_renormalizes_witness :
    ratAbs (((adjust_probability_distribution exampleServeDist "ace" (1/5)).map
        Prod.snd).sum - 1) ≤ 1/1000000 ∧
    (distLookup (adjust_probability_distribution exampleServeDist "ace" (1/5))
        "in_play").getD 0 =
      17 * (distLookup (adjust_probability_distribution exampleServeDist "ace"
        (1/5)) "error").getD 0 :=
  (adjust_distribution_renormalizes exampleServeDist "ace" (1/5) (by decide)
    (by
      intro kv hkv
      simp only [exampleServeDist, List.mem_cons, List.not_mem_nil, or_false] at hkv
      rcases hkv with rfl | rfl | rfl <;> norm_num)
    (by decide)
    (by
      simp only [exampleServeDist, distLookup, List.find?_cons_of_pos,
        Option.map_some, Option.getD_some, ratAbs, decide_eq_true_eq]
      norm_num)).2.2

/-! ## Confidence intervals (`bvsim/cli.py`) -/

/-- `statistics.mean`. -/
def listMean (vs : List ℚ) : ℚ := vs.sum / vs.length

/-- The radicand of `statistics.stdev`: Σ (x − mean)² / (n − 1). -/
def sampleVariance (vs : List ℚ) : ℚ :=
  ((vs.map (fun v => (v - listMean vs) ^ 2)).sum) / ((vs.length : ℚ) - 1)

/-- `statistics.stdev`, the sample standard deviation, with `math.sqrt`
abstracted as `sqrtFn` (real square roots are not representable in ℚ). -/
def sampleStdev (sqrtFn : ℚ → ℚ) (vs : List ℚ) : ℚ := sqrtFn (sampleVariance vs)

/-- The fixed t-critical table of `calculate_confidence_interval`
(cli.py:121-122). -/
def t_critical_map : List (Nat × ℚ) :=
  [(3, 4303/1000), (4, 3182/1000), (5, 2776/1000), (6, 2571/1000), (7, 2447/1000),
   (8, 2365/1000), (9, 2306/1000), (10, 2262/1000), (11, 2228/1000), (12, 2201/1000),
   (13, 2179/1000), (14, 2160/1000), (15, 2145/1000), (20, 2086/1000), (25, 2064/1000),
   (29, 2045/1000)]

/-- `t_critical_map.get(n, 2.045)` (cli.py:123). -/
def t_critical (n : Nat) : ℚ :=
  ((t_critical_map.find? (fun kv => kv.1 = n)).map (fun kv => kv.2)).getD (2045/1000)

/-- `calculate_confidence_interval` from `bvsim/cli.py:98-126`, returning the
tuple (mean, lower, upper), parameterized by `math.sqrt`. -/
def calculate_confidence_interval (sqrtFn : ℚ → ℚ) (values : List ℚ)
    (confidence : ℚ) : ℚ × ℚ × ℚ :=
  if values.length < 2 then (values.headD 0, 0, 0)
  else
    let n := values.length
    let mean := listMean values
    if n = 2 then
      let half_range := ratAbs (values.getD 1 0 - values.getD 0 0) / 2
      (mean, mean - half_range, mean + half_range)
    else
      let stdev := sampleStdev sqrtFn values
      let margin_of_error :=
        if 30 ≤ n then
          (if 95/100 ≤ confidence then 196/100 else 1645/1000) *
            (stdev / sqrtFn (n : ℚ))
        else t_critical n * (stdev / sqrtFn (n : ℚ))
      (mean, mean - margin_of_error, mean + margin_of_error)

/-- C8 (amended): for fewer than 2 samples the interval has zero width with
lower = upper = 0 (not centered at the sole value); the mean slot carries the
sole value, or 0 for an empty list. -/
theorem ci_small_samples (sqrtFn : ℚ → ℚ) (vs : List ℚ) (confidence : ℚ)
    (h : vs.length < 2) :
    calculate_confidence_interval sqrtFn vs confidence = (vs.headD 0, 0, 0) := by
  unfold calculate_confidence_interval
  rw [if_pos h]

theorem ci_small_samples_witness :
    ([(10 : ℚ)].length < 2) ∧
    calculate_confidence_interval id [(10 : ℚ)] (95/100) = ((10 : ℚ), 0, 0) :=
  ⟨by decide, ci_small_samples id [(10 : ℚ)] (95/100) (by decide)⟩

/-- C8 counterexample: for the one-element list [10] the returned interval is
(10, 0, 0) — lower and upper are 0, not the sole value 10 as the claim
states. -/
theorem ci_single_value_cex :
    calculate_confidence_interval id [(10 : ℚ)] (95/100) = ((10 : ℚ), 0, 0) ∧
    (0 : ℚ) ≠ 10 := by
  constructor
  · rfl
  · norm_num

/-- C7: the three regimes of `calculate_confidence_interval` for R ≥ 2
samples: R = 2 uses the range-based half-width |v1 − v0| / 2; 3 ≤ R < 30 uses
the Student-t margin `t_critical(R) × stdev / sqrt R` with the fixed table
keyed at 3–15, 20, 25, 29 and fallback 2.045 for every R not in the table;
R ≥ 30 uses the normal margin with z = 1.96 at confidence ≥ 0.95 and 1.645
below; the interval is always [mean − margin, mean + margin].  In particular
[10, 20] gives (15, 10, 20) exactly, and R ≥ 30 identical samples give a
zero-width interval. -/
theorem calculate_confidence_interval_regimes :
    (∀ (sqrtFn : ℚ → ℚ) (c v0 v1 : ℚ),
      calculate_confidence_interval sqrtFn [v0, v1] c =
        (listMean [v0, v1], listMean [v0, v1] - ratAbs (v1 - v0) / 2,
          listMean [v0, v1] + ratAbs (v1 - v0) / 2)) ∧
    (∀ (sqrtFn : ℚ → ℚ) (c : ℚ) (vs : List ℚ), 3 ≤ vs.length → vs.length < 30 →
      calculate_confidence_interval sqrtFn vs c =
        (listMean vs,
         listMean vs - t_critical vs.length *
           (sampleStdev sqrtFn vs / sqrtFn (vs.length : ℚ)),
         listMean vs + t_critical vs.length *
           (sampleStdev sqrtFn vs / sqrtFn (vs.length : ℚ)))) ∧
    (∀ (sqrtFn : ℚ → ℚ) (c : ℚ) (vs : List ℚ), 30 ≤ vs.length →
      calculate_confidence_interval sqrtFn vs c =
        (listMean vs,
         listMean vs - (if 95/100 ≤ c then 196/100 else 1645/1000) *
           (sampleStdev sqrtFn vs / sqrtFn (vs.length : ℚ)),
         listMean vs + (if 95/100 ≤ c then 196/100 else 1645/1000) *
           (sampleStdev sqrtFn vs / sqrtFn (vs.length : ℚ)))) ∧
    (t_critical_map.map Prod.fst =
        [3, 4, 5, 6, 7, 8, 9, 10, 11, 12, 13, 14, 15, 20, 25, 29] ∧
      ∀ n : Nat, ¬ n ∈ t_critical_map.map Prod.fst →
        t_critical n = 2045/1000) ∧
    (calculate_confidence_interval id [(10 : ℚ), 20] (95/100) = (15, 10, 20)) ∧
    (∀ (sqrtFn : ℚ → ℚ) (c : ℚ) (n : Nat) (x : ℚ), 30 ≤ n → sqrtFn 0 = 0 →
      calculate_confidence_interval sqrtFn (List.replicate n x) c = (x, x, x)) := by
  have h2 : ∀ (sqrtFn : ℚ → ℚ) (c v0 v1 : ℚ),
      calculate_confidence_interval sqrtFn [v0, v1] c =
        (listMean [v0, v1], listMean [v0, v1] - ratAbs (v1 - v0) / 2,
          listMean [v0, v1] + ratAbs (v1 - v0) / 2) := by
    intro sqrtFn c v0 v1
    unfold calculate_confidence_interval
    rw [if_neg (by simp)]
    dsimp only []
    rw [if_pos (show ([v0, v1] : List ℚ).length = 2 from rfl)]
    rfl
  have hbig : ∀ (sqrtFn : ℚ → ℚ) (c : ℚ) (vs : List ℚ), 30 ≤ vs.length →
      calculate_confidence_interval sqrtFn vs c =
        (listMean vs,
         listMean vs - (if 95/100 ≤ c then 196/100 else 1645/1000) *
           (sampleStdev sqrtFn vs / sqrtFn (vs.length : ℚ)),
         listMean vs + (if 95/100 ≤ c then 196/100 else 1645/1000) *
           (sampleStdev sqrtFn vs / sqrtFn (vs.length : ℚ))) := by
    intro sqrtFn c vs h30
    unfold calculate_confidence_interval
    rw [if_neg (by omega)]
    dsimp only []
    rw [if_neg (by omega)]
    rw [if_pos h30]
  refine ⟨h2, ?_, hbig, ⟨by decide, ?_⟩, ?_, ?_⟩
  · intro sqrtFn c vs h3 h30
    unfold calculate_confidence_interval
    rw [if_neg (by omega)]
    dsimp only []
    rw [if_neg (by omega)]
    rw [if_neg (by omega)]
  · intro n hn
    have hfind : t_critical_map.find? (fun kv => kv.1 = n) = none := by
      refine List.find?_eq_none.mpr ?_
      intro kv hkv
      simp only [decide_eq_true_eq]
      intro hk
      exact hn (hk ▸ List.mem_map_of_mem Prod.fst hkv)
    unfold t_critical
    rw [hfind]
    rfl
  · rw [h2 id (95/100) 10 20]
    have hm : listMean [(10 : ℚ), 20] = 15 := by
      unfold listMean
      norm_num
    rw [hm]
    have hr : ratAbs ((20 : ℚ) - 10) = 10 := by
      unfold ratAbs
      norm_num
    rw [hr]
    norm_num
  · intro sqrtFn c n x h30 hs0
    have hlen : (List.replicate n x).length = n := List.length_replicate n x
    rw [hbig sqrtFn c (List.replicate n x) (by omega)]
    have hmean : listMean (List.replicate n x) = x := by
      unfold listMean
      rw [List.sum_replicate, hlen, nsmul_eq_mul]
      have hn0 : (n : ℚ) ≠ 0 := by
        exact_mod_cast Nat.pos_iff_ne_zero.mp (by omega)
      field_simp
    have hvar : sampleVariance (List.replicate n x) = 0 := by
      unfold sampleVariance
      rw [hmean, List.map_replicate]
      simp
    have hstd : sampleStdev sqrtFn (List.replicate n x) = 0 := by
      unfold sampleStdev
      rw [hvar, hs0]
    rw [hstd, hmean]
    simp

theorem calculate_confidence_interval_regimes_witness :
    (30 ≤ 30) ∧ (id (0 : ℚ) = 0) ∧
    calculate_confidence_interval id (List.replicate 30 (5 : ℚ)) (95/100) =
      (5, 5, 5) :=
  ⟨by decide, rfl,
    calculate_confidence_interval_regimes.2.2.2.2.2 id (95/100) 30 5 (by decide) rfl⟩

/-! ## Point-to-match conversion (`bvsim/cli.py` `simulate_volleyball_match`) -/

/-- The per-set target selection of `simulate_volleyball_match` (cli.py:64):
`points_to_win_standard` unless `a_sets + b_sets ≥ 2*sets_to_win − 1`, in
which case `points_to_win_last`. -/
def points_to_win_for_set (a_sets b_sets sets_to_win standard last : Nat) : Nat :=
  if a_sets + b_sets < 2 * sets_to_win - 1 then standard else last

/-- Result of playing out one set: the match ended for A or B (two sets), or
the set closed with the updated set score. -/
inductive SetOutcome where
  | matchA
  | matchB
  | setOver (a_sets b_sets : Nat)

/-- The inner point loop of `simulate_volleyball_match` (cli.py:66-83): play
points of the current set until it closes (target reached with a two-point
margin), consuming one uniform draw per point; a side reaching `sets_to_win`
sets ends the match at once.  `fuel` bounds the number of points: the Python
loop is unbounded (on an adversarial draw stream a set never closes), and
`none` reports exhausted fuel — the theorems below run with ample fuel. -/
def set_point_loop (p : ℚ) (points_to_win sets_to_win : Nat) :
    Nat → Nat → Nat → Nat → Nat → RNG → Option (SetOutcome × RNG)
  | 0, _, _, _, _, _ => none
  | fuel+1, a_sets, b_sets, a_points, b_points, g =>
    if ¬(points_to_win ≤ a_points ∧ 2 ≤ a_points - b_points) ∧
        ¬(points_to_win ≤ b_points ∧ 2 ≤ b_points - a_points) then
      let a_win_point := g.val < p
      let g := g.next
      let a_points := if a_win_point then a_points + 1 else a_points
      let b_points := if a_win_point then b_points else b_points + 1
      let a_sets2 := if points_to_win ≤ a_points ∧ 2 ≤ a_points - b_points
        then a_sets + 1 else a_sets
      let b_sets2 := if ¬(points_to_win ≤ a_points ∧ 2 ≤ a_points - b_points) ∧
          (points_to_win ≤ b_points ∧ 2 ≤ b_points - a_points)
        then b_sets + 1 else b_sets
      if a_sets2 = sets_to_win then some (SetOutcome.matchA, g)
      else if b_sets2 = sets_to_win then some (SetOutcome.matchB, g)
      else set_point_loop p points_to_win sets_to_win fuel a_sets2 b_sets2
        a_points b_points g
    else some (SetOutcome.setOver a_sets b_sets, g)

/-- The outer set loop of `simulate_volleyball_match` (cli.py:59-86) for a
single match, parameterized by the per-set target selection `ptwOf a_sets
b_sets` so that the source's selection and the specification's can be
compared on the same loop.  Returns the match winner "A" or "B". -/
def match_loop (p : ℚ) (sets_to_win : Nat) (ptwOf : Nat → Nat → Nat)
    (set_fuel : Nat) : Nat → Nat → Nat → RNG → Option (String × RNG)
  | 0, _, _, _ => none
  | fuel+1, a_sets, b_sets, g =>
    if a_sets < sets_to_win ∧ b_sets < sets_to_win then
      match set_point_loop p (ptwOf a_sets b_sets) sets_to_win set_fuel a_sets
          b_sets 0 0 g with
      | none => none
      | some (SetOutcome.matchA, g2) => some ("A", g2)
      | some (SetOutcome.matchB, g2) => some ("B", g2)
      | some (SetOutcome.setOver a2 b2, g2) =>
          match_loop p sets_to_win ptwOf set_fuel fuel a2 b2 g2
    else none

/-- One simulated match of `simulate_volleyball_match`, with the source's
per-set target selection. -/
def simulate_one_match (p : ℚ) (sets_to_win standard last set_fuel match_fuel : Nat)
    (g : RNG) : Option (String × RNG) :=
  match_loop p sets_to_win
    (fun a_sets b_sets => points_to_win_for_set a_sets b_sets sets_to_win standard last)
    set_fuel match_fuel 0 0 g

/-- Specification-side comparison definition for C9: the same match with the
deciding set — both sides one set short of `sets_to_win` — played to `last`
(15) and every other set to `standard` (21), following the specification's
words for best-of-3 matches. -/
def simulate_one_match_decider_to_last (p : ℚ)
    (sets_to_win standard last set_fuel match_fuel : Nat) (g : RNG) :
    Option (String × RNG) :=
  match_loop p sets_to_win
    (fun a_sets b_sets =>
      if a_sets = sets_to_win - 1 ∧ b_sets = sets_to_win - 1 then last else standard)
    set_fuel match_fuel 0 0 g

/-- The match-counting loop of `simulate_volleyball_match` (cli.py:57-88):
each iteration of `while a_wins + b_wins < max_games` finishes exactly one
match and increments one counter, so it is a fold over `max_games` matches. -/
def match_series (p : ℚ) (sets_to_win standard last set_fuel match_fuel : Nat) :
    Nat → Nat → Nat → RNG → Option (Nat × Nat × RNG)
  | 0, a_wins, b_wins, g => some (a_wins, b_wins, g)
  | games+1, a_wins, b_wins, g =>
    match simulate_one_match p sets_to_win standard last set_fuel match_fuel g with
    | none => none
    | some (w, g2) =>
        if w = "A" then
          match_series p sets_to_win standard last set_fuel match_fuel games
            (a_wins + 1) b_wins g2
        else
          match_series p sets_to_win standard last set_fuel match_fuel games
            a_wins (b_wins + 1) g2

/-- `simulate_volleyball_match` from `bvsim/cli.py:42-88` (defaults
max_games = 10000, sets_to_win = 2, standard 21, deciding 15): the estimated
match win rate for side A at point-win probability `p`. -/
def simulate_volleyball_match (p : ℚ) (max_games sets_to_win standard last
    set_fuel match_fuel : Nat) (g : RNG) : Option ℚ :=
  (match_series p sets_to_win standard last set_fuel match_fuel max_games 0 0 g).map
    (fun r => if 0 < r.1 + r.2.1 then (r.1 : ℚ) / ((r.1 : ℚ) + (r.2.1 : ℚ)) else 1/2)

/-- `point_to_match_impact` from `bvsim/cli.py:91-95`: the difference of the
match win rates at `baseline + improvement/100` and at `baseline`, in
percentage points, each estimated by `simulate_volleyball_match` with its
defaults (10000 matches, best-of-3, sets to 21, `points_to_win_last = 15`). -/
def point_to_match_impact (point_improvement baseline_point_rate : ℚ)
    (set_fuel match_fuel : Nat) (g1 g2 : RNG) : Option ℚ := do
  let baseline_match_rate ← simulate_volleyball_match baseline_point_rate
    10000 2 21 15 set_fuel match_fuel g1
  let improved_match_rate ← simulate_volleyball_match
    (baseline_point_rate + point_improvement / 100) 10000 2 21 15 set_fuel
    match_fuel g2
  pure ((improved_match_rate - baseline_match_rate) * 100)

/-- The draw stream exhibiting the deciding-set bug: A takes the first 21
points (set 1), B the next 21 (set 2), A the next 15, and B every point
after that. -/
def deciderStream : Nat → ℚ := fun i =>
  if i < 21 then 0 else if i < 42 then 1 else if i < 57 then 0 else 1

/-- C9 (code bug): with the best-of-3 defaults the selection
`a_sets + b_sets < 2*sets_to_win − 1` (i.e. `< 3`) is true for every
reachable set score, so the deciding set is played to 21, never to the
documented `points_to_win_last = 15`.  On a stream where the sets split 1-1
and A then takes 15 straight points, a 15-point decider gives the match to A,
but the code keeps playing to 21 and B wins it. -/
theorem deciding_set_played_to_21 :
    points_to_win_for_set 1 1 2 21 15 = 21 ∧
    (∀ a_sets b_sets : Nat, a_sets < 2 → b_sets < 2 →
      points_to_win_for_set a_sets b_sets 2 21 15 = 21) ∧
    (simulate_one_match (mkRat 1 2) 2 21 15 200 4 ⟨deciderStream, 0⟩).map
        Prod.fst = some "B" ∧
    (simulate_one_match_decider_to_last (mkRat 1 2) 2 21 15 200 4
        ⟨deciderStream, 0⟩).map Prod.fst = some "A" := by
  refine ⟨rfl, ?_, ?_, ?_⟩
  · intro a_sets b_sets ha hb
    unfold points_to_win_for_set
    rw [if_pos (by omega)]
  · decide
  · decide

end BVSim
